import Mathlib

/-!
Shallow embedding of the answer-normalization and matching core of
`src/app.py` (kanji-reading flashcard app).

Python strings are modelled as lists of Unicode code points (`List Nat`);
each definition below names the source construct it embeds.  The only
external code the core calls is the optional `jaconv` library: its two
conversion functions are passed in as fallible oracles
(`List Nat → Except Unit (List Nat)`, `Except.error` standing for a raised
Python exception), and the katakana→hiragana fold that the spec contracts
for it is also modelled concretely (`kata2hira` below) for round-trip
claims.
-/

namespace KanjiApp

/-- Code-point test for the Python regex `[一-鿿]` used by
`contains_kanji` and the first-kanji scan (src/app.py lines 82, 268). -/
def isKanjiB (c : Nat) : Bool := 0x4E00 ≤ c && c ≤ 0x9FFF

/-- Embeds `contains_kanji` (src/app.py lines 81-82):
`bool(re.search(r"[一-鿿]", s))`. -/
def contains_kanji (s : List Nat) : Bool := s.any isKanjiB

/-- Code-point test for the Python regex `[a-z]` (src/app.py line 64). -/
def isLatinLowerB (c : Nat) : Bool := 0x61 ≤ c && c ≤ 0x7A

/-- Code-point test for the Python regex `[゠-ヿ]` (katakana block,
src/app.py line 73). -/
def isKatakanaB (c : Nat) : Bool := 0x30A0 ≤ c && c ≤ 0x30FF

/-- Hiragana block U+3040-U+309F, the canonical comparison script of the
spec (used to state the hiragana-only claims; not itself tested by the
code). -/
def isHiraganaB (c : Nat) : Bool := 0x3040 ≤ c && c ≤ 0x309F

/-- The whitespace set of CPython for `str` patterns: what `\s` matches in
`re.sub(r"\s+", "", s)` (src/app.py line 78) and what `str.strip()`
removes (line 62): tab, LF, VT, FF, CR, FS, GS, RS, US, space, NEL, NBSP,
Ogham space, the U+2000-U+200A spaces, LS, PS, NNBSP, MMSP and the
ideographic space U+3000. -/
def isPySpaceB (c : Nat) : Bool :=
  c == 0x09 || c == 0x0A || c == 0x0B || c == 0x0C || c == 0x0D ||
  c == 0x1C || c == 0x1D || c == 0x1E || c == 0x1F || c == 0x20 ||
  c == 0x85 || c == 0xA0 || c == 0x1680 ||
  (0x2000 ≤ c && c ≤ 0x200A) ||
  c == 0x2028 || c == 0x2029 || c == 0x202F || c == 0x205F || c == 0x3000

/-- Embeds Python `str.strip()` (src/app.py line 62): drop leading and
trailing whitespace. -/
def pyStrip (s : List Nat) : List Nat :=
  ((s.dropWhile isPySpaceB).reverse.dropWhile isPySpaceB).reverse

/-- Embeds Python `str.lower()` (src/app.py line 62) on one code point.
Restricted to ASCII case folding: ASCII letters are the only case-bearing
characters the claims involve (kana, kanji, whitespace and ASCII symbols
are case-invariant under the full Unicode fold as well). -/
def lowerChar (c : Nat) : Nat := if 0x41 ≤ c && c ≤ 0x5A then c + 0x20 else c

/-- Embeds Python `str.lower()` on a whole string. -/
def pyLower (s : List Nat) : List Nat := s.map lowerChar

/-- Embeds `re.sub(r"\s+", "", s)` (src/app.py line 78): remove every
whitespace code point. -/
def removeWhitespace (s : List Nat) : List Nat := s.filter (fun c => !isPySpaceB c)

/-- Modelled from the spec: the Kana Case Folder contract of §4.3 for the
external `jaconv.kata2hira` call (src/app.py line 75), whose implementation
is not part of this repository — each code point of the katakana block
U+30A0-U+30FF is mapped to its hiragana counterpart at the fixed offset
-0x60, every other character passes through unchanged. -/
def kata2hira (s : List Nat) : List Nat :=
  s.map (fun c => if 0x30A0 ≤ c && c ≤ 0x30FF then c - 0x60 else c)

/-- The code-point mapping named by the spec's katakana round-trip property
(§8.5): each hiragana code point moved to its katakana counterpart at the
fixed offset +0x60.  This is the test-harness converter the round-trip
claim quantifies over, not code of the app. -/
def hira2kata (s : List Nat) : List Nat := s.map (fun c => c + 0x60)

/-- Embeds `normalize_answer` (src/app.py lines 59-79).  `hasJaconv` is the
module flag `HAS_JACONV` (lines 52-57); `romaji2hiragana` abstracts the
`jaconv.romaji2hiragana` / `roma2hiragana` call of lines 66-69 (the
`hasattr` probing and its possible absence are part of the oracle);
`kata2hiraFn` abstracts the `jaconv.kata2hira` call of line 75.
`Except.error` models a raised exception, which the `try/except: pass`
blocks of lines 65-71 and 74-77 swallow, keeping `s` unchanged. -/
def normalize_answer (hasJaconv : Bool)
    (romaji2hiragana kata2hiraFn : List Nat → Except Unit (List Nat))
    (user_input : List Nat) : List Nat :=
  if user_input = [] then []
  else
    let s1 := pyLower (pyStrip user_input)
    let s2 := if s1.any isLatinLowerB && hasJaconv then
        match romaji2hiragana s1 with
        | .ok t => t
        | .error _ => s1
      else s1
    let s3 := if s2.any isKatakanaB && hasJaconv then
        match kata2hiraFn s2 with
        | .ok t => t
        | .error _ => s2
      else s2
    removeWhitespace s3

/-- Embeds `KANJI_MAP` (src/app.py lines 15-46): kanji code point paired
with its ordered accepted hiragana readings, first reading canonical. -/
def KANJI_MAP : List (Nat × List (List Nat)) := [
  -- 人 : ひと, じん, にん
  (0x4EBA, [[0x3072, 0x3068], [0x3058, 0x3093], [0x306B, 0x3093]]),
  -- 男 : おとこ
  (0x7537, [[0x304A, 0x3068, 0x3053]]),
  -- 女 : おんな
  (0x5973, [[0x304A, 0x3093, 0x306A]]),
  -- 子 : こ, し
  (0x5B50, [[0x3053], [0x3057]]),
  -- 母 : はは, かあ, おかあさん
  (0x6BCD, [[0x306F, 0x306F], [0x304B, 0x3042], [0x304A, 0x304B, 0x3042, 0x3055, 0x3093]]),
  -- 父 : ちち, とう, おとうさん
  (0x7236, [[0x3061, 0x3061], [0x3068, 0x3046], [0x304A, 0x3068, 0x3046, 0x3055, 0x3093]]),
  -- 友 : とも
  (0x53CB, [[0x3068, 0x3082]]),
  -- 日 : ひ, にち, じつ
  (0x65E5, [[0x3072], [0x306B, 0x3061], [0x3058, 0x3064]]),
  -- 月 : つき, がつ, げつ
  (0x6708, [[0x3064, 0x304D], [0x304C, 0x3064], [0x3052, 0x3064]]),
  -- 火 : ひ, か
  (0x706B, [[0x3072], [0x304B]]),
  -- 水 : みず, すい
  (0x6C34, [[0x307F, 0x305A], [0x3059, 0x3044]]),
  -- 木 : き, もく
  (0x6728, [[0x304D], [0x3082, 0x304F]]),
  -- 金 : かね, きん
  (0x91D1, [[0x304B, 0x306D], [0x304D, 0x3093]]),
  -- 土 : つち, ど
  (0x571F, [[0x3064, 0x3061], [0x3069]]),
  -- 本 : ほん
  (0x672C, [[0x307B, 0x3093]]),
  -- 川 : かわ
  (0x5DDD, [[0x304B, 0x308F]]),
  -- 花 : はな
  (0x82B1, [[0x306F, 0x306A]]),
  -- 気 : き, け
  (0x6C17, [[0x304D], [0x3051]]),
  -- 魚 : さかな, うお
  (0x9B5A, [[0x3055, 0x304B, 0x306A], [0x3046, 0x304A]]),
  -- 天 : てん
  (0x5929, [[0x3066, 0x3093]]),
  -- 空 : そら, くう
  (0x7A7A, [[0x305D, 0x3089], [0x304F, 0x3046]]),
  -- 山 : やま
  (0x5C71, [[0x3084, 0x307E]]),
  -- 雨 : あめ, う
  (0x96E8, [[0x3042, 0x3081], [0x3046]]),
  -- 車 : くるま, しゃ
  (0x8ECA, [[0x304F, 0x308B, 0x307E], [0x3057, 0x3083]]),
  -- 耳 : みみ
  (0x8033, [[0x307F, 0x307F]]),
  -- 手 : て
  (0x624B, [[0x3066]]),
  -- 足 : あし, そく
  (0x8DB3, [[0x3042, 0x3057], [0x305D, 0x304F]]),
  -- 目 : め, もく
  (0x76EE, [[0x3081], [0x3082, 0x304F]]),
  -- 口 : くち, こう
  (0x53E3, [[0x304F, 0x3061], [0x3053, 0x3046]]),
  -- 名 : な, めい
  (0x540D, [[0x306A], [0x3081, 0x3044]])]

/-- Embeds `KANJI_LIST = list(KANJI_MAP.keys())` (src/app.py line 47). -/
def KANJI_LIST : List Nat := KANJI_MAP.map (fun p => p.1)

/-- Dictionary lookup `KANJI_MAP.get(ch, default)` without the default:
`some` readings when the character is a key, `none` otherwise. -/
def kanjiLookup (ch : Nat) : Option (List (List Nat)) :=
  (KANJI_MAP.find? (fun p => p.1 == ch)).map (fun p => p.2)

/-- Embeds the expression `KANJI_MAP.get(ch, [None])[0] or ""` of
src/app.py lines 265 and 271: the first accepted reading when `ch` is in
the table, the empty string when it is absent (`[None][0] or ""`).  A
present key always carries a non-empty reading list in `KANJI_MAP` (else
the Python `[0]` would fault), and a falsy first reading (impossible in
the static table) would likewise collapse to `""` under `or ""`. -/
def resolveReading (ch : Nat) : List Nat :=
  match kanjiLookup ch with
  | some rs => rs.headD []
  | none => []

/-- Embeds the module-level normalization pipeline of src/app.py lines
260-273 — the spec's `normalize(raw, current_prompt)` (§4.5).  `current`
is `st.session_state.current`, a single kanji code point, so the Python
substring test `st.session_state.current in candidate_raw` (line 264) is
code-point membership; the first-kanji scan of line 268 is
`re.search(r"[一-鿿]", candidate_raw)`, i.e. the leftmost kanji.
A kanji-free candidate goes through `normalize_answer` (line 273); an
empty candidate leaves `normalized = ""` (lines 260-261). -/
def normalize (hasJaconv : Bool)
    (romaji2hiragana kata2hiraFn : List Nat → Except Unit (List Nat))
    (current : Nat) (candidate_raw : List Nat) : List Nat :=
  if candidate_raw = [] then []
  else if contains_kanji candidate_raw then
    if current ∈ candidate_raw then resolveReading current
    else
      match candidate_raw.find? isKanjiB with
      | some ch => resolveReading ch
      | none => []
  else normalize_answer hasJaconv romaji2hiragana kata2hiraFn candidate_raw

/-- The tri-state outcome of the Check Answer handler (src/app.py lines
275-288): "No answer provided" / "Correct!" / "Incorrect". -/
inductive CheckOutcome where
  | empty
  | correct
  | incorrect
deriving DecidableEq, Repr

/-- The matching decision of the Check Answer handler (src/app.py lines
277-288): empty normalized answer reports "No answer provided" (line 278),
otherwise exact list membership `normalized in correct_list` (line 281)
decides correct vs incorrect. -/
def check (normalized : List Nat) (correct_list : List (List Nat)) : CheckOutcome :=
  if normalized = [] then .empty
  else if normalized ∈ correct_list then .correct
  else .incorrect

/-- Embeds `st.session_state` as used by the app (src/app.py lines
87-91). -/
structure Session where
  current : Nat
  history : List (Nat × List Nat × Bool)
  last_transcript : List Nat
  user_answer : List Nat
deriving DecidableEq, Repr

/-- Embeds the session init block (src/app.py lines 87-91); `choice` is
the value of `random.choice(KANJI_LIST)`. -/
def initSession (choice : Nat) : Session :=
  { current := choice, history := [], last_transcript := [], user_answer := [] }

/-- Embeds the Check Answer button handler (src/app.py lines 275-288):
store `candidate_raw` into `user_answer`, then either report "no answer"
(no state change) or append exactly one `(current, normalized, is_correct)`
tuple to `history`.  `correct_list = KANJI_MAP[st.session_state.current]`
(line 280) is the lookup of the current prompt, which the app always draws
from `KANJI_LIST` (a missing key would raise `KeyError`). -/
def checkAnswer (s : Session) (candidate_raw normalized : List Nat) : Session :=
  let s1 := { s with user_answer := candidate_raw }
  match check normalized ((kanjiLookup s1.current).getD []) with
  | .empty => s1
  | .correct => { s1 with history := s1.history ++ [(s1.current, normalized, true)] }
  | .incorrect => { s1 with history := s1.history ++ [(s1.current, normalized, false)] }

/-- Embeds the New Kanji button handler (src/app.py lines 145-148);
`choice` is the value of `random.choice(KANJI_LIST)`. -/
def newKanji (s : Session) (choice : Nat) : Session :=
  { s with current := choice, last_transcript := [], user_answer := [] }

/-- Oracle for a `jaconv` romaji conversion that always raises (worst-case
soft-fail scenario). -/
def failingOracle : List Nat → Except Unit (List Nat) := fun _ => .error ()

/-- Oracle that converts nothing: returns its input unchanged. -/
def idOracle : List Nat → Except Unit (List Nat) := fun s => .ok s

/-- Oracle for `jaconv.kata2hira` behaving per the spec's §4.3 contract. -/
def kataOracle : List Nat → Except Unit (List Nat) := fun s => .ok (kata2hira s)

/-! ### Character-class facts -/

/-- Whitespace code points are not ideographs. -/
theorem space_not_kanji {c : Nat} (h : isPySpaceB c = true) : isKanjiB c = false := by
  simp [isPySpaceB] at h
  simp [isKanjiB]
  omega

/-- Lowercasing fixes every code point outside A-Z. -/
theorem lowerChar_eq_self {c : Nat} (h : c < 0x41 ∨ 0x5A < c) : lowerChar c = c := by
  unfold lowerChar
  have hc : (0x41 ≤ c && c ≤ 0x5A) = false := by
    simp
    omega
  rw [hc]
  simp

/-- Hiragana code points are neither kanji, whitespace, Latin letters nor
katakana, and lowercasing fixes them. -/
theorem hira_facts {c : Nat} (h : isHiraganaB c = true) :
    isKanjiB c = false ∧ isPySpaceB c = false ∧ isLatinLowerB c = false ∧
    isKatakanaB c = false ∧ lowerChar c = c := by
  simp [isHiraganaB] at h
  refine ⟨?_, ?_, ?_, ?_, lowerChar_eq_self (by omega)⟩
  · simp [isKanjiB]; omega
  · simp [isPySpaceB]; omega
  · simp [isLatinLowerB]; omega
  · simp [isKatakanaB]; omega

/-- Katakana code points are neither kanji, whitespace nor Latin letters,
and lowercasing fixes them. -/
theorem kata_facts {c : Nat} (h : isKatakanaB c = true) :
    isKanjiB c = false ∧ isPySpaceB c = false ∧ isLatinLowerB c = false ∧
    lowerChar c = c := by
  simp [isKatakanaB] at h
  refine ⟨?_, ?_, ?_, lowerChar_eq_self (by omega)⟩
  · simp [isKanjiB]; omega
  · simp [isPySpaceB]; omega
  · simp [isLatinLowerB]; omega

/-! ### List-level helper lemmas -/

/-- Dropping a predicate that holds nowhere drops nothing. -/
theorem dropWhile_eq_self_of {p : Nat → Bool} {l : List Nat}
    (h : ∀ c ∈ l, p c = false) : l.dropWhile p = l := by
  cases l with
  | nil => rfl
  | cons a t =>
    rw [List.dropWhile_cons, h a (List.mem_cons_self a t)]
    simp

/-- Stripping a string with no whitespace is the identity. -/
theorem pyStrip_eq_self {l : List Nat} (h : ∀ c ∈ l, isPySpaceB c = false) :
    pyStrip l = l := by
  unfold pyStrip
  rw [dropWhile_eq_self_of h,
    dropWhile_eq_self_of (fun c hc => h c (List.mem_reverse.mp hc)),
    List.reverse_reverse]

/-- Stripping an all-whitespace string yields the empty string. -/
theorem pyStrip_eq_nil {l : List Nat} (h : ∀ c ∈ l, isPySpaceB c = true) :
    pyStrip l = [] := by
  unfold pyStrip
  rw [List.dropWhile_eq_nil_iff.mpr (fun c hc => h c hc)]
  rfl

/-- Mapping a function that fixes every element is the identity. -/
theorem map_eq_self_of {f : Nat → Nat} : ∀ {l : List Nat},
    (∀ c ∈ l, f c = c) → l.map f = l
  | [], _ => rfl
  | a :: t, h => by
    rw [List.map_cons, h a (List.mem_cons_self a t),
      map_eq_self_of (fun c hc => h c (List.mem_cons_of_mem a hc))]

/-- Lowercasing a string with no uppercase ASCII letters is the identity. -/
theorem pyLower_eq_self {l : List Nat} (h : ∀ c ∈ l, lowerChar c = c) :
    pyLower l = l := map_eq_self_of h

/-- Removing whitespace from a whitespace-free string is the identity. -/
theorem removeWhitespace_eq_self {l : List Nat}
    (h : ∀ c ∈ l, isPySpaceB c = false) : removeWhitespace l = l := by
  unfold removeWhitespace
  exact List.filter_eq_self.mpr (fun c hc => by rw [h c hc]; rfl)

/-- Every code point surviving whitespace removal is non-whitespace. -/
theorem removeWhitespace_no_space (l : List Nat) :
    ∀ c ∈ removeWhitespace l, isPySpaceB c = false := by
  intro c hc
  unfold removeWhitespace at hc
  have := (List.mem_filter.mp hc).2
  simpa using this

/-! ### Table facts -/

/-- Every reading list of the static table is non-empty (so the Python
`[0]` indexing in the kanji branch never faults). -/
theorem table_readings_nonempty : ∀ p ∈ KANJI_MAP, ∀ r ∈ p.2, r ≠ [] := by
  decide

/-- Every accepted reading of the static table is pure hiragana. -/
theorem table_readings_hiragana :
    ∀ p ∈ KANJI_MAP, ∀ r ∈ p.2, ∀ c ∈ r, isHiraganaB c = true := by
  decide

/-- A successful dictionary lookup exhibits a table entry. -/
theorem mem_table_of_lookup {ch : Nat} {rs : List (List Nat)}
    (h : kanjiLookup ch = some rs) : (ch, rs) ∈ KANJI_MAP := by
  unfold kanjiLookup at h
  cases hf : KANJI_MAP.find? (fun p => p.1 == ch) with
  | none => rw [hf] at h; simp at h
  | some p =>
    rw [hf] at h
    have hp := List.find?_some hf
    have hm : p ∈ KANJI_MAP := List.mem_of_find?_eq_some hf
    obtain ⟨p1, p2⟩ := p
    simp at hp h
    rw [← hp, ← h]
    exact hm

/-- Whatever the kanji branch resolves is pure hiragana (a table reading
or the empty string). -/
theorem resolveReading_hiragana (ch : Nat) :
    ∀ c ∈ resolveReading ch, isHiraganaB c = true := by
  intro c hc
  unfold resolveReading at hc
  cases hl : kanjiLookup ch with
  | none => rw [hl] at hc; simp at hc
  | some rs =>
    rw [hl] at hc
    have hmem := mem_table_of_lookup hl
    cases rs with
    | nil => simp at hc
    | cons r t =>
      have hr : c ∈ r := by simpa using hc
      exact table_readings_hiragana (ch, r :: t) hmem r (List.mem_cons_self r t) c hr

/-! ### Behaviour of the normalizer on pure-kana input -/

/-- The normalizer fixes every pure-hiragana string, whatever the `jaconv`
flag and oracles: the strip, lower, romaji, katakana and whitespace steps
all leave it unchanged. -/
theorem normalize_answer_hiragana_fix {hasJ : Bool}
    {r k : List Nat → Except Unit (List Nat)} {l : List Nat}
    (h : ∀ c ∈ l, isHiraganaB c = true) :
    normalize_answer hasJ r k l = l := by
  unfold normalize_answer
  by_cases hnil : l = []
  · simp [hnil]
  · rw [if_neg hnil]
    have h1 : pyStrip l = l := pyStrip_eq_self (fun c hc => (hira_facts (h c hc)).2.1)
    have h2 : pyLower l = l := pyLower_eq_self (fun c hc => (hira_facts (h c hc)).2.2.2.2)
    have h3 : l.any isLatinLowerB = false :=
      List.any_eq_false.mpr (fun c hc => by simp [(hira_facts (h c hc)).2.2.1])
    have h4 : l.any isKatakanaB = false :=
      List.any_eq_false.mpr (fun c hc => by simp [(hira_facts (h c hc)).2.2.2.1])
    have h5 : removeWhitespace l = l :=
      removeWhitespace_eq_self (fun c hc => (hira_facts (h c hc)).2.1)
    simp [h1, h2, h3, h4, h5]

/-- The whole pipeline (kanji branch included) fixes every pure-hiragana
string. -/
theorem normalize_hiragana_fix {hasJ : Bool}
    {r k : List Nat → Except Unit (List Nat)} {cur : Nat} {l : List Nat}
    (h : ∀ c ∈ l, isHiraganaB c = true) :
    normalize hasJ r k cur l = l := by
  unfold normalize
  by_cases hnil : l = []
  · simp [hnil]
  · have hnk : contains_kanji l = false := by
      unfold contains_kanji
      exact List.any_eq_false.mpr (fun c hc => by simp [(hira_facts (h c hc)).1])
    rw [if_neg hnil, hnk]
    simpa using normalize_answer_hiragana_fix h

/-- The katakana image of a hiragana string is pure katakana. -/
theorem hira2kata_katakana {l : List Nat} (h : ∀ c ∈ l, isHiraganaB c = true) :
    ∀ c ∈ hira2kata l, isKatakanaB c = true := by
  intro c hc
  obtain ⟨a, ha, rfl⟩ := List.mem_map.mp hc
  have := h a ha
  simp [isHiraganaB] at this
  simp [isKatakanaB]
  omega

/-- Folding undoes the katakana shift on every hiragana code point. -/
theorem kata2hira_hira2kata {l : List Nat} (h : ∀ c ∈ l, isHiraganaB c = true) :
    kata2hira (hira2kata l) = l := by
  unfold kata2hira hira2kata
  rw [List.map_map]
  apply map_eq_self_of
  intro c hc
  have := h c hc
  simp [isHiraganaB] at this
  show (if 0x30A0 ≤ c + 0x60 && c + 0x60 ≤ 0x30FF then c + 0x60 - 0x60 else c + 0x60) = c
  have hcond : (0x30A0 ≤ c + 0x60 && c + 0x60 ≤ 0x30FF) = true := by
    simp
    omega
  rw [hcond]
  simp

/-- On a non-empty pure-katakana string, `normalize_answer` (with `jaconv`
available and its fold behaving per the §4.3 contract) performs exactly the
katakana→hiragana fold. -/
theorem normalize_answer_katakana {r : List Nat → Except Unit (List Nat)}
    {l : List Nat} (h : ∀ c ∈ l, isKatakanaB c = true)
    (hhira : ∀ c ∈ kata2hira l, isHiraganaB c = true) :
    normalize_answer true r kataOracle l = kata2hira l := by
  by_cases hnil : l = []
  · subst hnil; rfl
  · unfold normalize_answer
    rw [if_neg hnil]
    have h1 : pyStrip l = l := pyStrip_eq_self (fun c hc => (kata_facts (h c hc)).2.1)
    have h2 : pyLower l = l := pyLower_eq_self (fun c hc => (kata_facts (h c hc)).2.2.2)
    have h3 : l.any isLatinLowerB = false :=
      List.any_eq_false.mpr (fun c hc => by simp [(kata_facts (h c hc)).2.2.1])
    have h4 : l.any isKatakanaB = true := by
      cases l with
      | nil => exact absurd rfl hnil
      | cons a t => exact List.any_eq_true.mpr ⟨a, List.mem_cons_self a t, h a (List.mem_cons_self a t)⟩
    have h5 : removeWhitespace (kata2hira l) = kata2hira l :=
      removeWhitespace_eq_self (fun c hc => (hira_facts (hhira c hc)).2.1)
    simp [h1, h2, h3, h4, kataOracle, h5]

/-! ### The claims -/

/-- Claim C1: for every input containing at least one ideograph
(U+4E00-U+9FFF) and every current prompt entry, if any character of the
input equals the prompt's character the normalizer returns the prompt's
canonical (first) accepted reading; otherwise it resolves the first
ideograph in left-to-right order, returning its canonical reading when the
character is in the table and the empty string when it is absent; and in
either case the romaji and katakana steps are never applied (the result is
independent of the `jaconv` flag and oracles). -/
theorem C1_kanji_branch (hasJ : Bool) (r k : List Nat → Except Unit (List Nat))
    (current : Nat) (rs : List (List Nat)) (raw : List Nat)
    (hcur : kanjiLookup current = some rs)
    (hk : contains_kanji raw = true) :
    (current ∈ raw → normalize hasJ r k current raw = rs.headD []) ∧
    (current ∉ raw → ∀ ch, raw.find? isKanjiB = some ch →
      (∀ rs', kanjiLookup ch = some rs' → normalize hasJ r k current raw = rs'.headD []) ∧
      (kanjiLookup ch = none → normalize hasJ r k current raw = [])) ∧
    (∀ (hasJ' : Bool) (r' k' : List Nat → Except Unit (List Nat)),
      normalize hasJ r k current raw = normalize hasJ' r' k' current raw) := by
  have hne : raw ≠ [] := by
    rintro rfl
    simp [contains_kanji] at hk
  refine ⟨?_, ?_, ?_⟩
  · intro hmem
    simp [normalize, hne, hk, hmem, resolveReading, hcur]
  · intro hmem ch hch
    refine ⟨?_, ?_⟩
    · intro rs' hrs'
      simp [normalize, hne, hk, hmem, hch, resolveReading, hrs']
    · intro hnone
      simp [normalize, hne, hk, hmem, hch, resolveReading, hnone]
  · intro hasJ' r' k'
    simp [normalize, hne, hk]

/-- Witness for C1: pasting the prompt kanji 川 itself yields its canonical
reading かわ. -/
theorem C1_witness :
    normalize true idOracle kataOracle 0x5DDD [0x5DDD] = [0x304B, 0x308F] :=
  (C1_kanji_branch true idOracle kataOracle 0x5DDD [[0x304B, 0x308F]] [0x5DDD]
    (by decide) (by decide)).1 (by decide)

/-- Claim C2: for every normalized answer and every table entry, the check
reports correct exactly when the answer equals one element of the entry's
accepted readings (no fuzzy matching), and a non-empty answer matching no
element reports incorrect. -/
theorem C2_exact_membership (chr : Nat) (rs : List (List Nat))
    (hmem : (chr, rs) ∈ KANJI_MAP) (n : List Nat) :
    (check n rs = CheckOutcome.correct ↔ n ∈ rs) ∧
    (n ≠ [] → n ∉ rs → check n rs = CheckOutcome.incorrect) := by
  have hnonempty : ∀ q ∈ rs, q ≠ [] := table_readings_nonempty (chr, rs) hmem
  constructor
  · constructor
    · intro hc
      by_cases h0 : n = []
      · subst h0
        simp [check] at hc
      · by_cases h1 : n ∈ rs
        · exact h1
        · simp [check, h0, h1] at hc
    · intro h1
      have h0 : n ≠ [] := hnonempty n h1
      simp [check, h0, h1]
  · intro h0 h1
    simp [check, h0, h1]

/-- Witness for C2: こ is an accepted reading of the 子 entry and checks as
correct. -/
theorem C2_witness : check [0x3053] [[0x3053], [0x3057]] = CheckOutcome.correct :=
  (C2_exact_membership 0x5B50 [[0x3053], [0x3057]] (by decide) [0x3053]).1.mpr
    (by decide)

/-- Claim C3: normalizing the empty string or a whitespace-only string
returns the empty string; checking an empty normalized answer yields the
distinct empty outcome; and the empty string is a member of no table
entry's accepted readings. -/
theorem C3_empty_input (hasJ : Bool) (r k : List Nat → Except Unit (List Nat))
    (cur : Nat) (ws : List Nat) (hws : ∀ c ∈ ws, isPySpaceB c = true)
    (chr : Nat) (rs : List (List Nat)) (hmem : (chr, rs) ∈ KANJI_MAP) :
    normalize hasJ r k cur [] = [] ∧
    normalize hasJ r k cur ws = [] ∧
    check [] rs = CheckOutcome.empty ∧
    [] ∉ rs := by
  refine ⟨by simp [normalize], ?_, rfl,
    fun hc => table_readings_nonempty (chr, rs) hmem [] hc rfl⟩
  by_cases hnil : ws = []
  · simp [hnil, normalize]
  · have hnk : contains_kanji ws = false := by
      unfold contains_kanji
      exact List.any_eq_false.mpr (fun c hc => by simp [space_not_kanji (hws c hc)])
    unfold normalize
    rw [if_neg hnil, hnk]
    simp only [Bool.false_eq_true, if_false]
    unfold normalize_answer
    rw [if_neg hnil, pyStrip_eq_nil hws]
    simp [pyLower, removeWhitespace]

/-- Witness for C3: a single space normalizes to empty and the empty answer
yields the empty outcome against the 目 entry. -/
theorem C3_witness :
    normalize true idOracle kataOracle 0x76EE [] = [] ∧
    normalize true idOracle kataOracle 0x76EE [0x20] = [] ∧
    check [] [[0x3081], [0x3082, 0x304F]] = CheckOutcome.empty ∧
    [] ∉ [[0x3081], [0x3082, 0x304F]] :=
  C3_empty_input true idOracle kataOracle 0x76EE [0x20] (by decide) 0x76EE
    [[0x3081], [0x3082, 0x304F]] (by decide)

/-- Counterexample to C4 as stated: the input consisting of the single
code point 0x21 (an exclamation mark) contains no kanji, no Latin letter
and no katakana, so it passes through the normalizer unchanged — the
output is not a hiragana-only string. -/
theorem C4_counterexample :
    normalize true idOracle kataOracle 0x5C71 [0x21] = [0x21] ∧
    isHiraganaB 0x21 = false := by
  decide

/-- Claim C4 as amended: for every raw input and every current prompt the
normalizer's output contains no whitespace (the hiragana-only half of the
claim fails: input the transliterator cannot convert passes through with
its non-hiragana code points intact). -/
theorem C4_no_whitespace (hasJ : Bool) (r k : List Nat → Except Unit (List Nat))
    (cur : Nat) (raw : List Nat) :
    ∀ c ∈ normalize hasJ r k cur raw, isPySpaceB c = false := by
  intro c hc
  unfold normalize at hc
  by_cases hnil : raw = []
  · rw [if_pos hnil] at hc
    simp at hc
  · rw [if_neg hnil] at hc
    by_cases hk : contains_kanji raw = true
    · rw [hk] at hc
      simp only [if_true] at hc
      by_cases hmem : cur ∈ raw
      · rw [if_pos hmem] at hc
        exact (hira_facts (resolveReading_hiragana cur c hc)).2.1
      · rw [if_neg hmem] at hc
        cases hfind : raw.find? isKanjiB with
        | none => rw [hfind] at hc; simp at hc
        | some ch =>
          rw [hfind] at hc
          exact (hira_facts (resolveReading_hiragana ch c hc)).2.1
    · simp only [Bool.not_eq_true] at hk
      rw [hk] at hc
      simp only [Bool.false_eq_true, if_false] at hc
      unfold normalize_answer at hc
      rw [if_neg hnil] at hc
      exact removeWhitespace_no_space _ c hc

/-- Witness for C4 as amended: や survives the normalization of a padded
input and is not whitespace. -/
theorem C4_witness : isPySpaceB 0x3084 = false :=
  C4_no_whitespace true idOracle kataOracle 0x5C71 [0x20, 0x3084, 0x307E, 0x20]
    0x3084 (by decide)

/-- Claim C5: the matcher always lands in one of its three outcomes, and a
raised `jaconv` exception (in either conversion) degrades to passing the
string through unchanged — the normalizer with an always-raising oracle
computes exactly what it computes with an identity (no-op) conversion, so
no fault propagates. -/
theorem C5_soft_fail (hasJ : Bool) (r k : List Nat → Except Unit (List Nat))
    (cur : Nat) (raw n : List Nat) (cl : List (List Nat)) :
    (check n cl = CheckOutcome.empty ∨ check n cl = CheckOutcome.correct ∨
      check n cl = CheckOutcome.incorrect) ∧
    normalize hasJ failingOracle k cur raw = normalize hasJ idOracle k cur raw ∧
    normalize hasJ r failingOracle cur raw = normalize hasJ r idOracle cur raw := by
  refine ⟨?_, ?_, ?_⟩
  · cases hq : check n cl with
    | empty => exact Or.inl rfl
    | correct => exact Or.inr (Or.inl rfl)
    | incorrect => exact Or.inr (Or.inr rfl)
  · simp [normalize, normalize_answer, failingOracle, idOracle]
  · simp [normalize, normalize_answer, failingOracle, idOracle]

/-- Claim C6: for every hiragana string `h`, shifting each code point to
its katakana counterpart (+0x60) and normalizing the result (with `jaconv`
available and its fold per the §4.3 contract) returns `h` unchanged: the
katakana fold inside the normalizer is a left inverse of the
hiragana→katakana mapping. -/
theorem C6_katakana_round_trip (r : List Nat → Except Unit (List Nat))
    (cur : Nat) (h : List Nat) (hh : ∀ c ∈ h, isHiraganaB c = true) :
    normalize true r kataOracle cur (hira2kata h) = h := by
  by_cases hnil : h = []
  · subst hnil; rfl
  · have hkat : ∀ c ∈ hira2kata h, isKatakanaB c = true := hira2kata_katakana hh
    have hne : hira2kata h ≠ [] := by
      unfold hira2kata
      simpa using hnil
    have hnk : contains_kanji (hira2kata h) = false := by
      unfold contains_kanji
      exact List.any_eq_false.mpr (fun c hc => by simp [(kata_facts (hkat c hc)).1])
    have hhira : ∀ c ∈ kata2hira (hira2kata h), isHiraganaB c = true := by
      rw [kata2hira_hira2kata hh]
      exact hh
    unfold normalize
    rw [if_neg hne, hnk]
    simp only [Bool.false_eq_true, if_false]
    rw [normalize_answer_katakana hkat hhira, kata2hira_hira2kata hh]

/-- Witness for C6: こ → コ → こ survives the round trip. -/
theorem C6_witness :
    normalize true idOracle kataOracle 0x5B50 (hira2kata [0x3053]) = [0x3053] :=
  C6_katakana_round_trip idOracle 0x5B50 [0x3053] (by decide)

/-- Claim C7: the normalizer is idempotent on its own output — whenever
`normalize x` is a pure-hiragana string (whitespace-free by C4), running it
through the normalizer again changes nothing. -/
theorem C7_idempotent (hasJ : Bool) (r k : List Nat → Except Unit (List Nat))
    (cur : Nat) (x : List Nat)
    (hn : ∀ c ∈ normalize hasJ r k cur x, isHiraganaB c = true) :
    normalize hasJ r k cur (normalize hasJ r k cur x) =
      normalize hasJ r k cur x :=
  normalize_hiragana_fix hn

/-- Witness for C7: normalizing こ gives こ, which renormalizes to
itself. -/
theorem C7_witness :
    normalize true idOracle kataOracle 0x5B50
        (normalize true idOracle kataOracle 0x5B50 [0x3053]) =
      normalize true idOracle kataOracle 0x5B50 [0x3053] :=
  C7_idempotent true idOracle kataOracle 0x5B50 [0x3053] (by decide)

/-- An empty normalized answer leaves the session unchanged except for
`user_answer` (the handler's warning branch appends nothing). -/
theorem checkAnswer_empty (s : Session) (raw : List Nat) :
    checkAnswer s raw [] = { s with user_answer := raw } := rfl

/-- A non-empty normalized answer appends exactly one history tuple, whose
correctness flag is the membership test against the current entry. -/
theorem checkAnswer_nonempty (s : Session) (raw n : List Nat) (h : n ≠ []) :
    checkAnswer s raw n = { s with
      user_answer := raw
      history := s.history ++ [(s.current, n,
        decide (n ∈ (kanjiLookup s.current).getD []))] } := by
  by_cases h1 : n ∈ (kanjiLookup s.current).getD []
  · simp [checkAnswer, check, h, h1]
  · simp [checkAnswer, check, h, h1]

/-- Counterexample to C8 as stated: a check whose normalized answer is
empty (the "No answer provided" branch) appends no tuple at all, so a
check does not always append exactly one tuple. -/
theorem C8_counterexample :
    ¬ ((checkAnswer (initSession 0x5C71) [] []).history.length =
        (initSession 0x5C71).history.length + 1) := by
  decide

/-- Claim C8 as amended: every explicitly requested check whose normalized
answer is non-empty appends exactly one (prompt, normalized, correctness)
tuple, an empty-answer check appends none; the current prompt is unchanged
by a check and replaced only by an explicit new-prompt request, which also
clears `last_transcript`; and a check only ever extends the history by a
suffix (no in-place mutation). -/
theorem C8_frame (s : Session) (raw n : List Nat) (choice : Nat) :
    (n ≠ [] → ∃ b, (checkAnswer s raw n).history =
      s.history ++ [(s.current, n, b)]) ∧
    (n = [] → (checkAnswer s raw n).history = s.history) ∧
    (checkAnswer s raw n).current = s.current ∧
    (∃ t, (checkAnswer s raw n).history = s.history ++ t) ∧
    (newKanji s choice).current = choice ∧
    (newKanji s choice).last_transcript = [] ∧
    (newKanji s choice).history = s.history := by
  refine ⟨?_, ?_, ?_, ?_, rfl, rfl, rfl⟩
  · intro h0
    exact ⟨_, by rw [checkAnswer_nonempty s raw n h0]⟩
  · intro h0
    subst h0
    rw [checkAnswer_empty]
  · by_cases h0 : n = []
    · subst h0
      rw [checkAnswer_empty]
    · rw [checkAnswer_nonempty s raw n h0]
  · by_cases h0 : n = []
    · subst h0
      exact ⟨[], by rw [checkAnswer_empty]; simp⟩
    · exact ⟨_, by rw [checkAnswer_nonempty s raw n h0]⟩

/-- Witness for C8 as amended: checking こ on the 子 prompt appends one
tuple. -/
theorem C8_witness :
    ∃ b, (checkAnswer (initSession 0x5B50) [0x3053] [0x3053]).history =
      (initSession 0x5B50).history ++ [((initSession 0x5B50).current, [0x3053], b)] :=
  (C8_frame (initSession 0x5B50) [0x3053] [0x3053] 0x5C71).1 (by decide)

/-- Claim C9: with the `jaconv` library unavailable (`HAS_JACONV` false),
the normalizer applies neither romaji transliteration nor katakana folding
— on every kanji-free input it is exactly trim, lowercase and whitespace
removal, whatever the oracles would have done. -/
theorem C9_no_jaconv (r k : List Nat → Except Unit (List Nat))
    (cur : Nat) (raw : List Nat) (hk : contains_kanji raw = false) :
    normalize false r k cur raw = removeWhitespace (pyLower (pyStrip raw)) := by
  by_cases hnil : raw = []
  · subst hnil
    rfl
  · unfold normalize
    rw [if_neg hnil, hk]
    simp only [Bool.false_eq_true, if_false]
    unfold normalize_answer
    rw [if_neg hnil]
    simp

/-- Witness for C9: without `jaconv`, the romaji input Kawa only gets
lowercased, not transliterated. -/
theorem C9_witness :
    normalize false idOracle kataOracle 0x5C71 [0x4B, 0x61, 0x77, 0x61] =
      removeWhitespace (pyLower (pyStrip [0x4B, 0x61, 0x77, 0x61])) ∧
    removeWhitespace (pyLower (pyStrip [0x4B, 0x61, 0x77, 0x61])) =
      [0x6B, 0x61, 0x77, 0x61] :=
  ⟨C9_no_jaconv idOracle kataOracle 0x5C71 [0x4B, 0x61, 0x77, 0x61] (by decide),
    by decide⟩

/-- Claim C10: a check whose normalized answer is empty appends nothing to
the history, and the invariant that every history tuple carries a
non-empty normalized answer holds initially and is preserved by both the
check and the new-prompt operations. -/
theorem C10_history_invariant (s : Session) (raw n : List Nat) (choice : Nat)
    (hinv : ∀ t ∈ s.history, t.2.1 ≠ []) :
    (checkAnswer s raw []).history = s.history ∧
    (∀ t ∈ (checkAnswer s raw n).history, t.2.1 ≠ []) ∧
    (∀ t ∈ (newKanji s choice).history, t.2.1 ≠ []) ∧
    (initSession choice).history = [] := by
  refine ⟨by rw [checkAnswer_empty], ?_, hinv, rfl⟩
  by_cases h0 : n = []
  · subst h0
    rw [checkAnswer_empty]
    exact hinv
  · rw [checkAnswer_nonempty s raw n h0]
    intro t ht
    rcases List.mem_append.mp ht with ht | ht
    · exact hinv t ht
    · rw [List.mem_singleton.mp ht]
      exact h0

/-- Witness for C10: from a fresh session, an empty check appends nothing
and a こ check keeps every history answer non-empty. -/
theorem C10_witness :
    (checkAnswer (initSession 0x5B50) [] []).history = (initSession 0x5B50).history ∧
    (∀ t ∈ (checkAnswer (initSession 0x5B50) [] [0x3053]).history, t.2.1 ≠ []) ∧
    (∀ t ∈ (newKanji (initSession 0x5B50) 0x5C71).history, t.2.1 ≠ []) ∧
    (initSession 0x5C71).history = [] :=
  C10_history_invariant (initSession 0x5B50) [] [0x3053] 0x5C71 (by simp [initSession])

end KanjiApp
